import Mathlib

/-!
Shallow embedding of the passcode-game backend core
(`src/backend/app/services/game_service.py`,
`src/backend/app/services/guess_service.py` and the models in
`src/backend/app/models/`), together with theorems checking the
natural-language specification against it.

Modelling conventions:
* Python `Optional[X]` becomes `Option X`; absent timestamps are dropped
  (no claim mentions them).
* Raised service exceptions become `Except GameError`; an untyped Python
  crash (e.g. indexing a too-short string, attribute access on `None`)
  becomes `Option.none` at the outermost layer.
* The persistence collaborator is modelled by explicit state passing of the
  `Game` aggregate: each service function receives the game it would fetch
  from the store and returns the game it would persist.  Fresh identifiers
  produced by the id-generator collaborator are passed in as arguments.
-/

namespace Passcode

/-- `GameStatus` enum from `app/models/game.py`. -/
inductive GameStatus where
  | waiting
  | inProgress
  | completed
deriving DecidableEq, Repr

/-- `Player` model from `app/models/player.py` (identifier, display name,
optional secret, readiness flag). -/
structure Player where
  player_id : String
  name : String
  secret_number : Option String
  is_ready : Bool
deriving DecidableEq, Repr

/-- `Guess` model from `app/models/guess.py`; the creation timestamp is not
modelled (no claim refers to it). -/
structure Guess where
  guess_id : String
  game_id : String
  guesser_player_id : String
  target_player_id : String
  guessed_number : String
  correct_digits : Nat
  correct_positions : Nat
  turn_number : Nat
deriving DecidableEq, Repr

/-- `Game` model from `app/models/game.py`; the creation timestamp is not
modelled (no claim refers to it). -/
structure Game where
  game_id : String
  player_1 : Player
  player_2 : Option Player
  current_turn : Option String
  status : GameStatus
  winner_id : Option String
  guesses : List Guess
  turn_count : Nat
deriving DecidableEq, Repr

/-- The typed failure kinds of `app/utils/exceptions.py`. -/
inductive GameError where
  | gameNotFound
  | playerNotFound
  | gameFull
  | notYourTurn
  | gameNotStarted
  | numberAlreadyLocked
  | invalidNumberFormat
  | gameAlreadyCompleted
  | playerNotInGame
deriving DecidableEq, Repr

/-- `create_new_game` from `game_service.py`: fresh slot-1 player, empty
game in WAITING.  The generated identifiers are arguments. -/
def create_new_game (game_id player_id player_name : String) : Game :=
  { game_id := game_id
    player_1 :=
      { player_id := player_id
        name := player_name
        secret_number := none
        is_ready := false }
    player_2 := none
    current_turn := none
    status := GameStatus.waiting
    winner_id := none
    guesses := []
    turn_count := 0 }

/-- `join_game` from `game_service.py`.  Note the source checks
`player_2 is not None` (GameFull) BEFORE the COMPLETED check. -/
def join_game (game : Game) (new_player_id player_name : String) :
    Except GameError Game :=
  if game.player_2.isSome then
    Except.error GameError.gameFull
  else if game.status = GameStatus.completed then
    Except.error GameError.gameAlreadyCompleted
  else
    Except.ok
      { game with
        player_2 := some
          { player_id := new_player_id
            name := player_name
            secret_number := none
            is_ready := false } }

/-- The auto-start condition of `lock_player_number`: slot 1 present and
ready, slot 2 present and ready. -/
def both_players_ready (game : Game) : Bool :=
  game.player_1.is_ready &&
    (match game.player_2 with
     | some p2 => p2.is_ready
     | none => false)

/-- The tail of `lock_player_number`: if both players are ready, set
status to IN_PROGRESS and current turn to player 1. -/
def maybe_start (game : Game) : Game :=
  if both_players_ready game then
    { game with
      status := GameStatus.inProgress
      current_turn := some game.player_1.player_id }
  else game

/-- `lock_player_number` from `game_service.py`: COMPLETED check, slot
lookup (slot 1 first), double-lock check, write secret and readiness,
then the auto-start check. -/
def lock_player_number (game : Game) (player_id secret_number : String) :
    Except GameError Game :=
  if game.status = GameStatus.completed then
    Except.error GameError.gameAlreadyCompleted
  else
    let locked : Except GameError Game :=
      if game.player_1.player_id = player_id then
        if game.player_1.is_ready then
          Except.error GameError.numberAlreadyLocked
        else
          Except.ok
            { game with
              player_1 :=
                { game.player_1 with
                  secret_number := some secret_number
                  is_ready := true } }
      else
        match game.player_2 with
        | some p2 =>
          if p2.player_id = player_id then
            if p2.is_ready then
              Except.error GameError.numberAlreadyLocked
            else
              Except.ok
                { game with
                  player_2 := some
                    { p2 with
                      secret_number := some secret_number
                      is_ready := true } }
          else
            Except.error GameError.playerNotInGame
        | none => Except.error GameError.playerNotInGame
    match locked with
    | Except.error e => Except.error e
    | Except.ok g => Except.ok (maybe_start g)

/-- `validate_turn` from `game_service.py`. -/
def validate_turn (game : Game) (player_id : String) : Bool :=
  game.current_turn = some player_id

/-- `switch_turn` from `game_service.py`.  The source reads
`game.player_2.player_id` when the current turn is player 1's; with slot 2
absent that line raises an untyped `AttributeError`, modelled as `none`. -/
def switch_turn (game : Game) : Option Game :=
  if game.current_turn = some game.player_1.player_id then
    match game.player_2 with
    | some p2 => some { game with current_turn := some p2.player_id }
    | none => none
  else
    some { game with current_turn := some game.player_1.player_id }

/-- `get_opponent` from `game_service.py` (may return Python `None` when
slot 2 is absent). -/
def get_opponent (game : Game) (player_id : String) : Option Player :=
  if game.player_1.player_id = player_id then game.player_2
  else some game.player_1

/-- `check_winner` from `game_service.py`. -/
def check_winner (correct_positions : Nat) : Bool :=
  correct_positions = 4

/-- `set_winner` from `game_service.py`: sets the winner and marks the game
COMPLETED.  It does NOT touch `current_turn`. -/
def set_winner (game : Game) (winner_id : String) : Game :=
  { game with
    winner_id := some winner_id
    status := GameStatus.completed }

/-- `calculate_match` from `guess_service.py`.  The position loop indexes
`secret[i]` and `guess[i]` for `i < 4`; if either string is shorter the
source raises an untyped `IndexError`, modelled as `none`.  The digit count
iterates over the distinct characters of `guess`, adding
`min(secret_count[d], guess_count[d])` for those also occurring in
`secret`.  Returns `(correct_digits, correct_positions)`. -/
def calculate_match (secret guess : String) : Option (Nat × Nat) :=
  let s := secret.data
  let g := guess.data
  if 4 ≤ s.length ∧ 4 ≤ g.length then
    let correct_positions :=
      ((List.range 4).filter (fun i => s.get? i = g.get? i)).length
    let correct_digits :=
      g.dedup.foldl
        (fun acc d => if d ∈ s then acc + min (s.count d) (g.count d) else acc) 0
    some (correct_digits, correct_positions)
  else none

/-- The success payload of `process_guess` (`guess_service.py` returns a
dict with these keys). -/
structure GuessResult where
  guess_id : String
  guessed_number : String
  correct_digits : Nat
  correct_positions : Nat
  is_winner : Bool
  next_turn : Option String
  winner_id : Option String
  turn_number : Nat
deriving DecidableEq, Repr

/-- The `is_player_1` local of `process_guess`: the pythonic truthiness
test `game.player_1 and game.player_1.player_id == player_id` (slot 1 is
always present). -/
def is_in_slot_1 (game : Game) (player_id : String) : Bool :=
  game.player_1.player_id = player_id

/-- The `is_player_2` local of `process_guess`:
`game.player_2 and game.player_2.player_id == player_id`. -/
def is_in_slot_2 (game : Game) (player_id : String) : Bool :=
  match game.player_2 with
  | some p2 => p2.player_id = player_id
  | none => false

/-- `process_guess` from `guess_service.py`.  The generated guess
identifier is an argument.  Outer `none` models an untyped Python crash
(opponent absent, opponent secret absent, or a too-short string inside
`calculate_match`).  In `scores`, `.1` is the dict entry
`correct_digits` and `.2` is `correct_positions`. -/
def process_guess (game : Game) (player_id guessed_number guess_id : String) :
    Option (Except GameError (Game × GuessResult)) :=
  if game.status = GameStatus.waiting then
    some (Except.error GameError.gameNotStarted)
  else if game.status = GameStatus.completed then
    some (Except.error GameError.gameAlreadyCompleted)
  else if !(is_in_slot_1 game player_id) && !(is_in_slot_2 game player_id) then
    some (Except.error GameError.playerNotInGame)
  else if !(validate_turn game player_id) then
    some (Except.error GameError.notYourTurn)
  else
    match get_opponent game player_id with
    | none => none
    | some opponent =>
      match opponent.secret_number with
      | none => none
      | some secret_number =>
        match calculate_match secret_number guessed_number with
        | none => none
        | some scores =>
          let new_count := game.turn_count + 1
          let guess : Guess :=
            { guess_id := guess_id
              game_id := game.game_id
              guesser_player_id := player_id
              target_player_id := opponent.player_id
              guessed_number := guessed_number
              correct_digits := scores.1
              correct_positions := scores.2
              turn_number := new_count }
          let game1 :=
            { game with
              turn_count := new_count
              guesses := game.guesses ++ [guess] }
          if check_winner scores.2 then
            some (Except.ok
              (set_winner game1 player_id,
               { guess_id := guess_id
                 guessed_number := guessed_number
                 correct_digits := scores.1
                 correct_positions := scores.2
                 is_winner := true
                 next_turn := none
                 winner_id := some player_id
                 turn_number := new_count }))
          else
            match switch_turn game1 with
            | none => none
            | some game2 =>
              some (Except.ok
                (game2,
                 { guess_id := guess_id
                   guessed_number := guessed_number
                   correct_digits := scores.1
                   correct_positions := scores.2
                   is_winner := false
                   next_turn := game2.current_turn
                   winner_id := none
                   turn_number := new_count }))

/-- Game states reachable through the service operations, starting from
`create_new_game`.  The hypothesis on `join` models the identifier
generator collaborator, which produces unique tokens (the joiner's id
differs from the creator's). -/
inductive Reachable : Game → Prop where
  | create (game_id player_id player_name : String) :
      Reachable (create_new_game game_id player_id player_name)
  | join {g g' : Game} (new_player_id player_name : String)
      (hr : Reachable g)
      (hfresh : new_player_id ≠ g.player_1.player_id)
      (h : join_game g new_player_id player_name = Except.ok g') :
      Reachable g'
  | lock {g g' : Game} (player_id secret_number : String)
      (hr : Reachable g)
      (h : lock_player_number g player_id secret_number = Except.ok g') :
      Reachable g'
  | guess {g g' : Game} {r : GuessResult}
      (player_id guessed_number guess_id : String)
      (hr : Reachable g)
      (h : process_guess g player_id guessed_number guess_id =
        some (Except.ok (g', r))) :
      Reachable g'

/-! ### Specification-side scoring definitions

These two definitions follow the words of the specification, to be
compared with `calculate_match`, which is translated from the source. -/

/-- The ten decimal digit characters. -/
def digit_chars : List Char :=
  ['0', '1', '2', '3', '4', '5', '6', '7', '8', '9']

/-- Spec wording: "`correct_positions` = count of indices i in [0,4) where
secret[i] == guess[i]". -/
def claimed_correct_positions (s g : List Char) : Nat :=
  ((List.range 4).filter (fun i => s.getD i ' ' = g.getD i ' ')).length

/-- Spec wording: "`correct_digits` = for each decimal digit value 0-9,
take the minimum of its occurrence count in `secret` and in `guess`, sum
across all ten digit values". -/
def claimed_correct_digits (s g : List Char) : Nat :=
  (digit_chars.map (fun d => min (s.count d) (g.count d))).sum

/-! ### Concrete example games (the end-to-end scenario of the spec) -/

/-- The game right after creation by Alice. -/
def exG0 : Game :=
  { game_id := "g"
    player_1 := { player_id := "alice", name := "Alice", secret_number := none, is_ready := false }
    player_2 := none
    current_turn := none
    status := GameStatus.waiting
    winner_id := none
    guesses := []
    turn_count := 0 }

/-- The game after Bob joins. -/
def exG1 : Game :=
  { exG0 with
    player_2 := some { player_id := "bob", name := "Bob", secret_number := none, is_ready := false } }

/-- The game after Alice locks "1234". -/
def exG2 : Game :=
  { exG1 with
    player_1 := { player_id := "alice", name := "Alice", secret_number := some "1234", is_ready := true } }

/-- The game after Bob locks "5678": both ready, IN_PROGRESS, Alice's
turn. -/
def exG3 : Game :=
  { exG2 with
    player_2 := some { player_id := "bob", name := "Bob", secret_number := some "5678", is_ready := true }
    status := GameStatus.inProgress
    current_turn := some "alice" }

/-- The guess record of Alice's winning guess "5678". -/
def exGuessRec : Guess :=
  { guess_id := "w1"
    game_id := "g"
    guesser_player_id := "alice"
    target_player_id := "bob"
    guessed_number := "5678"
    correct_digits := 4
    correct_positions := 4
    turn_number := 1 }

/-- The persisted game after Alice's winning guess: COMPLETED, winner
Alice — and `current_turn` still `some "alice"` (the source's
`set_winner` never clears it). -/
def exWin : Game :=
  { exG3 with
    status := GameStatus.completed
    winner_id := some "alice"
    guesses := [exGuessRec]
    turn_count := 1 }

/-- The guess record of Alice's non-winning guess "1111" (0 digits of
Bob's "5678" match). -/
def exMissRec : Guess :=
  { guess_id := "m1"
    game_id := "g"
    guesser_player_id := "alice"
    target_player_id := "bob"
    guessed_number := "1111"
    correct_digits := 0
    correct_positions := 0
    turn_number := 1 }

/-- The persisted game after Alice's non-winning guess: still IN_PROGRESS
and now Bob's turn. -/
def exMiss : Game :=
  { exG3 with
    current_turn := some "bob"
    guesses := [exMissRec]
    turn_count := 1 }

/-- The response payload of Alice's non-winning guess. -/
def exMissResult : GuessResult :=
  { guess_id := "m1"
    guessed_number := "1111"
    correct_digits := 0
    correct_positions := 0
    is_winner := false
    next_turn := some "bob"
    winner_id := none
    turn_number := 1 }

/-- Rank of a status along WAITING → IN_PROGRESS → COMPLETED, used to
state that transitions only move forward. -/
def status_rank : GameStatus → Nat
  | GameStatus.waiting => 0
  | GameStatus.inProgress => 1
  | GameStatus.completed => 2

theorem reachable_exG3 : Reachable exG3 := by
  have h0 : Reachable exG0 := Reachable.create "g" "alice" "Alice"
  have h1 : Reachable exG1 :=
    Reachable.join (g := exG0) "bob" "Bob" h0 (by decide) rfl
  have h2 : Reachable exG2 :=
    Reachable.lock (g := exG1) "alice" "1234" h1 rfl
  exact Reachable.lock (g := exG2) "bob" "5678" h2 rfl

theorem reachable_exWin : Reachable exWin := by
  refine Reachable.guess (g := exG3) (r := ?_) "alice" "5678" "w1" reachable_exG3 ?_
  · exact
      { guess_id := "w1"
        guessed_number := "5678"
        correct_digits := 4
        correct_positions := 4
        is_winner := true
        next_turn := none
        winner_id := some "alice"
        turn_number := 1 }
  · rfl

/-! ### Elimination lemmas for the operations -/

theorem join_game_ok_elim {g g' : Game} {nid nm : String}
    (h : join_game g nid nm = Except.ok g') :
    g.player_2 = none ∧ g.status ≠ GameStatus.completed ∧
      g' = { g with
        player_2 := some
          { player_id := nid, name := nm, secret_number := none, is_ready := false } } := by
  unfold join_game at h
  split at h
  · exact absurd h (by simp)
  · split at h
    · exact absurd h (by simp)
    · refine ⟨?_, by assumption, by injection h with h2; exact h2.symm⟩
      rename_i hp2 _
      cases hg : g.player_2 with
      | none => rfl
      | some p => rw [hg] at hp2; simp at hp2

theorem join_game_completed {g : Game} (nid nm : String)
    (h : g.status = GameStatus.completed) :
    (g.player_2.isSome → join_game g nid nm = Except.error GameError.gameFull) ∧
      (g.player_2 = none →
        join_game g nid nm = Except.error GameError.gameAlreadyCompleted) := by
  constructor
  · intro h2
    unfold join_game
    simp [h2]
  · intro h2
    unfold join_game
    simp [h2, h]

theorem lock_completed {g : Game} (pid sec : String)
    (h : g.status = GameStatus.completed) :
    lock_player_number g pid sec = Except.error GameError.gameAlreadyCompleted := by
  unfold lock_player_number
  simp [h]

theorem process_guess_completed {g : Game} (pid num gid : String)
    (h : g.status = GameStatus.completed) :
    process_guess g pid num gid =
      some (Except.error GameError.gameAlreadyCompleted) := by
  unfold process_guess
  simp [h]

/-- Characterization of a successful `lock_player_number`: either slot 1
was addressed (not yet ready) and its secret is written, or slot 2 was;
the result is `maybe_start` of the updated game. -/
theorem lock_ok_elim {g g' : Game} {pid sec : String}
    (h : lock_player_number g pid sec = Except.ok g') :
    g.status ≠ GameStatus.completed ∧
      ((g.player_1.player_id = pid ∧ g.player_1.is_ready = false ∧
          g' = maybe_start
            { g with
              player_1 :=
                { g.player_1 with secret_number := some sec, is_ready := true } }) ∨
        (g.player_1.player_id ≠ pid ∧
          ∃ p2 : Player, g.player_2 = some p2 ∧ p2.player_id = pid ∧
            p2.is_ready = false ∧
            g' = maybe_start
              { g with
                player_2 := some
                  { p2 with secret_number := some sec, is_ready := true } })) := by
  unfold lock_player_number at h
  split at h
  · exact absurd h (by simp)
  · refine ⟨by assumption, ?_⟩
    split at h
    · rename_i hid
      split at h
      · exact absurd h (by simp)
      · rename_i hready
        left
        exact ⟨hid, by simp at hready; exact hready, by injection h with h2; exact h2.symm⟩
    · rename_i hid
      split at h
      · rename_i p2 hp2
        split at h
        · rename_i hpid
          split at h
          · exact absurd h (by simp)
          · rename_i hready
            right
            refine ⟨hid, p2, hp2, hpid, by simp at hready; exact hready, ?_⟩
            injection h with h2
            exact h2.symm
        · exact absurd h (by simp)
      · exact absurd h (by simp)

/-- Characterization of a successful `process_guess`: the game was in
progress, it was the guesser's turn, the players are untouched, the turn
counter goes up by one, one guess record stamped with the new counter is
appended, and the win / non-win branches behave as in the source (note the
win branch leaves `current_turn` unchanged). -/
theorem process_guess_ok_elim {g g' : Game} {r : GuessResult}
    {pid num gid : String}
    (h : process_guess g pid num gid = some (Except.ok (g', r))) :
    g.status = GameStatus.inProgress ∧
      g.current_turn = some pid ∧
      g'.game_id = g.game_id ∧
      g'.player_1 = g.player_1 ∧
      g'.player_2 = g.player_2 ∧
      g'.turn_count = g.turn_count + 1 ∧
      r.turn_number = g.turn_count + 1 ∧
      (∃ rec : Guess, g'.guesses = g.guesses ++ [rec] ∧
        rec.turn_number = g.turn_count + 1) ∧
      ((r.is_winner = true ∧ g'.status = GameStatus.completed ∧
          g'.current_turn = g.current_turn ∧ g'.winner_id = some pid ∧
          r.next_turn = none ∧ r.winner_id = some pid) ∨
        (r.is_winner = false ∧ g'.status = GameStatus.inProgress ∧
          g'.winner_id = g.winner_id ∧ r.next_turn = g'.current_turn ∧
          ((g.player_1.player_id = pid ∧
              ∃ p2 : Player, g.player_2 = some p2 ∧
                g'.current_turn = some p2.player_id) ∨
            (g.player_1.player_id ≠ pid ∧
              g'.current_turn = some g.player_1.player_id)))) := by
  unfold process_guess at h
  split at h
  · exact absurd h (by simp)
  · split at h
    · exact absurd h (by simp)
    · rename_i hw hc
      have hst : g.status = GameStatus.inProgress := by
        cases hsv : g.status
        · exact absurd hsv hw
        · rfl
        · exact absurd hsv hc
      split at h
      · exact absurd h (by simp)
      · split at h
        · exact absurd h (by simp)
        · rename_i hturn
          have hct : g.current_turn = some pid := by
            unfold validate_turn at hturn
            simp at hturn
            exact hturn
          refine ⟨hst, hct, ?_⟩
          split at h
          · exact absurd h (by simp)
          · rename_i opponent hopp
            split at h
            · exact absurd h (by simp)
            · rename_i secret hsec
              split at h
              · exact absurd h (by simp)
              · rename_i scores hmatch
                split at h
                · -- winning branch
                  injection h with h2
                  injection h2 with h3
                  injection h3 with hgame hres
                  subst hgame hres
                  refine ⟨rfl, rfl, rfl, rfl, rfl,
                    ⟨_, rfl, rfl⟩, Or.inl ⟨rfl, rfl, rfl, rfl, rfl, rfl⟩⟩
                · -- non-winning branch
                  dsimp only at h
                  split at h
                  · exact absurd h (by simp)
                  · rename_i game2 hswitch
                    injection h with h2
                    injection h2 with h3
                    injection h3 with hgame hres
                    subst hres
                    unfold switch_turn at hswitch
                    split at hswitch
                    · rename_i hp1turn
                      split at hswitch
                      · rename_i p2 hp2
                        injection hswitch with hg2
                        subst hg2
                        subst hgame
                        refine ⟨rfl, rfl, rfl, rfl, rfl,
                          ⟨_, rfl, rfl⟩, Or.inr ⟨rfl, hst, rfl, rfl, ?_⟩⟩
                        left
                        have hpid : g.player_1.player_id = pid := by
                          rw [hct] at hp1turn
                          injection hp1turn with h4
                          exact h4.symm
                        exact ⟨hpid, p2, hp2, rfl⟩
                      · exact absurd hswitch (by simp)
                    · rename_i hp1turn
                      injection hswitch with hg2
                      subst hg2
                      subst hgame
                      refine ⟨rfl, rfl, rfl, rfl, rfl,
                        ⟨_, rfl, rfl⟩, Or.inr ⟨rfl, hst, rfl, rfl, ?_⟩⟩
                      right
                      refine ⟨?_, rfl⟩
                      intro hpid
                      rw [hct, hpid] at hp1turn
                      exact hp1turn rfl

/-! ### `maybe_start` facts and reachability invariants -/

theorem maybe_start_cases (g : Game) :
    (both_players_ready g = true ∧
        maybe_start g =
          { g with
            status := GameStatus.inProgress
            current_turn := some g.player_1.player_id }) ∨
      (both_players_ready g = false ∧ maybe_start g = g) := by
  unfold maybe_start
  by_cases h : both_players_ready g = true
  · left
    exact ⟨h, by rw [if_pos h]⟩
  · right
    exact ⟨by simpa using h, by rw [if_neg h]⟩

theorem both_players_ready_of_none {g : Game} (h : g.player_2 = none) :
    both_players_ready g = false := by
  unfold both_players_ready
  rw [h]
  exact Bool.and_false _

/-- Invariant: a reachable game whose slot 2 is empty is still WAITING
(equivalently, an IN_PROGRESS or COMPLETED reachable game has slot 2
populated). -/
theorem reachable_none_waiting {g : Game} (hr : Reachable g) :
    g.player_2 = none → g.status = GameStatus.waiting := by
  induction hr with
  | create gid pid nm => intro _; rfl
  | join nid nm hr hfresh h ih =>
    obtain ⟨hp2, hnc, heq⟩ := join_game_ok_elim h
    subst heq
    intro hcontra
    simp at hcontra
  | lock pid sec hr h ih =>
    obtain ⟨hnc, hcases⟩ := lock_ok_elim h
    rcases hcases with ⟨hpid, hready, heq⟩ | ⟨hpid, p2, hp2, hpid2, hready, heq⟩
    · subst heq
      rcases maybe_start_cases _ with ⟨hb, hms⟩ | ⟨hb, hms⟩
      · rw [hms]
        intro hp2n
        simp at hp2n
        rw [both_players_ready_of_none (by simpa using hp2n)] at hb
        exact absurd hb (by decide)
      · rw [hms]
        intro hp2n
        simp at hp2n ⊢
        exact ih hp2n
    · subst heq
      rcases maybe_start_cases _ with ⟨hb, hms⟩ | ⟨hb, hms⟩ <;> rw [hms] <;>
        intro hp2n <;> simp at hp2n
  | guess pid num gid hr h ih =>
    obtain ⟨hst, _, _, _, hp2eq, _⟩ := process_guess_ok_elim h
    intro hp2n
    rw [hp2eq] at hp2n
    rw [ih hp2n] at hst
    exact absurd hst (by decide)

/-- Invariant: a reachable WAITING game has no current turn. -/
theorem reachable_waiting_turn_none {g : Game} (hr : Reachable g) :
    g.status = GameStatus.waiting → g.current_turn = none := by
  induction hr with
  | create gid pid nm => intro _; rfl
  | join nid nm hr hfresh h ih =>
    obtain ⟨hp2, hnc, heq⟩ := join_game_ok_elim h
    subst heq
    intro hsv
    simp only at hsv ⊢
    exact ih hsv
  | lock pid sec hr h ih =>
    obtain ⟨hnc, hcases⟩ := lock_ok_elim h
    rcases hcases with ⟨hpid, hready, heq⟩ | ⟨hpid, p2, hp2, hpid2, hready, heq⟩ <;>
      subst heq <;>
      rcases maybe_start_cases _ with ⟨hb, hms⟩ | ⟨hb, hms⟩ <;> rw [hms] <;> intro hsv
    · simp at hsv
    · exact ih (by simpa using hsv)
    · simp at hsv
    · exact ih (by simpa using hsv)
  | guess pid num gid hr h ih =>
    obtain ⟨hst, _, _, _, _, _, _, _, hbranch⟩ := process_guess_ok_elim h
    intro hsv
    rcases hbranch with ⟨_, hc, _⟩ | ⟨_, hc, _⟩ <;> rw [hsv] at hc <;>
      exact absurd hc (by decide)

theorem both_players_ready_iff (g : Game) :
    both_players_ready g = true ↔
      (g.player_1.is_ready = true ∧
        ∃ p2 : Player, g.player_2 = some p2 ∧ p2.is_ready = true) := by
  unfold both_players_ready
  cases hp : g.player_2 with
  | none => simp [hp]
  | some p => simp [hp]

/-! ### Claim theorems -/

/-- C1 (counterexample): a reachable game whose status is COMPLETED — the
persisted result of Alice's winning guess — still carries
`current_turn = some "alice"`, so current-turn is NOT absent outside
IN_PROGRESS and a winning `process_guess` does not leave the persisted
current-turn absent. -/
theorem c1_counterexample :
    Reachable exWin ∧ exWin.status = GameStatus.completed ∧
      exWin.current_turn = some "alice" ∧
      process_guess exG3 "alice" "5678" "w1" =
        some (Except.ok (exWin,
          { guess_id := "w1"
            guessed_number := "5678"
            correct_digits := 4
            correct_positions := 4
            is_winner := true
            next_turn := none
            winner_id := some "alice"
            turn_number := 1 })) :=
  ⟨reachable_exWin, rfl, rfl, rfl⟩

/-- C1 (amended): in every reachable game, current-turn is absent while
status = WAITING; a winning `process_guess` sets the winner and moves the
status to COMPLETED but leaves the persisted current-turn unchanged —
still the guesser's identifier — while only the response's `next_turn`
field is absent. -/
theorem c1_current_turn_amended :
    (∀ g : Game, Reachable g → g.status = GameStatus.waiting →
      g.current_turn = none) ∧
      (∀ (g g' : Game) (r : GuessResult) (pid num gid : String),
        process_guess g pid num gid = some (Except.ok (g', r)) →
        r.is_winner = true →
        g'.status = GameStatus.completed ∧ g'.current_turn = some pid ∧
          g'.winner_id = some pid ∧ r.next_turn = none) := by
  constructor
  · intro g hr
    exact reachable_waiting_turn_none hr
  · intro g g' r pid num gid h hwin
    obtain ⟨hst, hct, _, _, _, _, _, _, hbranch⟩ := process_guess_ok_elim h
    rcases hbranch with ⟨_, h1, h2, h3, h4, _⟩ | ⟨hfalse, _⟩
    · exact ⟨h1, by rw [h2, hct], h3, h4⟩
    · rw [hwin] at hfalse
      exact absurd hfalse (by decide)

theorem c1_witness :
    exG0.current_turn = none ∧ exWin.status = GameStatus.completed ∧
      exWin.current_turn = some "alice" := by
  have h1 := c1_current_turn_amended.1 exG0 (Reachable.create "g" "alice" "Alice") rfl
  have h2 := c1_current_turn_amended.2 exG3 exWin
    { guess_id := "w1"
      guessed_number := "5678"
      correct_digits := 4
      correct_positions := 4
      is_winner := true
      next_turn := none
      winner_id := some "alice"
      turn_number := 1 }
    "alice" "5678" "w1" rfl rfl
  exact ⟨h1, h2.1, h2.2.1⟩

/-- C2 (counterexample): `join_game` on a reachable COMPLETED game fails
with GameFull, not GameAlreadyCompleted, because the source tests
`player_2 is not None` before the COMPLETED check and a reachable
completed game always has slot 2 populated. -/
theorem c2_counterexample :
    Reachable exWin ∧ exWin.status = GameStatus.completed ∧
      join_game exWin "carol" "Carol" = Except.error GameError.gameFull :=
  ⟨reachable_exWin, rfl, rfl⟩

/-- C2 (amended): joining an existing COMPLETED game fails with GameFull
whenever slot 2 is populated — which holds in every reachable completed
game — and with GameAlreadyCompleted only in the unreachable case of a
completed game with slot 2 absent. -/
theorem c2_join_completed_amended :
    ∀ (g : Game) (nid nm : String), g.status = GameStatus.completed →
      ((g.player_2.isSome = true →
          join_game g nid nm = Except.error GameError.gameFull) ∧
        (g.player_2 = none →
          join_game g nid nm = Except.error GameError.gameAlreadyCompleted) ∧
        (Reachable g → join_game g nid nm = Except.error GameError.gameFull)) := by
  intro g nid nm hc
  refine ⟨(join_game_completed nid nm hc).1, (join_game_completed nid nm hc).2, ?_⟩
  intro hr
  have h2 : g.player_2.isSome = true := by
    cases hp : g.player_2 with
    | none =>
      have hw := reachable_none_waiting hr hp
      rw [hw] at hc
      exact absurd hc (by decide)
    | some p => rfl
  exact (join_game_completed nid nm hc).1 h2

theorem c2_witness :
    join_game exWin "carol" "Carol" = Except.error GameError.gameFull :=
  (c2_join_completed_amended exWin "carol" "Carol" rfl).2.2 reachable_exWin

/-- C4: a successful `lock_player_number` on a WAITING game (with no
current turn, as in every reachable waiting game) moves the status to
IN_PROGRESS exactly when, after the update, both slots are populated and
ready; it then sets current-turn to slot 1's identifier (slot 1 is
unchanged by the lock); otherwise the status stays WAITING and
current-turn stays absent. -/
theorem c4_lock_auto_start :
    ∀ (g g' : Game) (pid sec : String),
      g.status = GameStatus.waiting → g.current_turn = none →
      lock_player_number g pid sec = Except.ok g' →
      (g'.player_1.player_id = g.player_1.player_id ∧
        (g'.status = GameStatus.inProgress ∨ g'.status = GameStatus.waiting) ∧
        (g'.status = GameStatus.inProgress ↔
          (g'.player_1.is_ready = true ∧
            ∃ p2 : Player, g'.player_2 = some p2 ∧ p2.is_ready = true)) ∧
        (g'.status = GameStatus.inProgress →
          g'.current_turn = some g.player_1.player_id) ∧
        (g'.status = GameStatus.waiting → g'.current_turn = none)) := by
  intro g g' pid sec hst hct h
  obtain ⟨hnc, hcases⟩ := lock_ok_elim h
  rcases hcases with ⟨hpid, hready, heq⟩ | ⟨hpid, p2, hp2, hpid2, hready, heq⟩ <;>
    subst heq <;>
    rcases maybe_start_cases _ with ⟨hb, hms⟩ | ⟨hb, hms⟩ <;> rw [hms] <;>
    dsimp only
  · refine ⟨rfl, Or.inl rfl, ?_, fun _ => rfl,
      fun hcontra => absurd hcontra (by decide)⟩
    exact Iff.intro (fun _ => (both_players_ready_iff _).mp hb) (fun _ => rfl)
  · refine ⟨rfl, Or.inr hst, ?_, ?_, fun _ => hct⟩
    · constructor
      · intro hcon
        rw [hst] at hcon
        exact absurd hcon (by decide)
      · intro hcon
        have hbt :=
          (both_players_ready_iff
            { g with
              player_1 :=
                { g.player_1 with
                  secret_number := some sec
                  is_ready := true } }).mpr ⟨rfl, hcon.2⟩
        rw [hbt] at hb
        exact absurd hb (by decide)
    · intro hcon
      rw [hst] at hcon
      exact absurd hcon (by decide)
  · refine ⟨rfl, Or.inl rfl, ?_, fun _ => rfl,
      fun hcontra => absurd hcontra (by decide)⟩
    exact Iff.intro (fun _ => (both_players_ready_iff _).mp hb) (fun _ => rfl)
  · refine ⟨rfl, Or.inr hst, ?_, ?_, fun _ => hct⟩
    · constructor
      · intro hcon
        rw [hst] at hcon
        exact absurd hcon (by decide)
      · intro hcon
        have hbt :=
          (both_players_ready_iff
            { g with
              player_2 := some
                { p2 with
                  secret_number := some sec
                  is_ready := true } }).mpr
            ⟨hcon.1,
              ⟨{ p2 with secret_number := some sec, is_ready := true }, rfl, rfl⟩⟩
        rw [hbt] at hb
        exact absurd hb (by decide)
    · intro hcon
      rw [hst] at hcon
      exact absurd hcon (by decide)

theorem c4_witness :
    exG3.current_turn = some "alice" ∧ exG3.status = GameStatus.inProgress := by
  have h := c4_lock_auto_start exG2 exG3 "bob" "5678" rfl rfl rfl
  have hs : exG3.status = GameStatus.inProgress := rfl
  exact ⟨h.2.2.2.1 hs, hs⟩

/-- C5: every successful `process_guess` increments the turn counter by
exactly one; after a non-winning guess the current turn flips to the other
slot (a guess by slot 1 hands the turn to slot 2 and vice versa — the
hypothesis that the two slots carry distinct identifiers models the
unique-id generator collaborator). -/
theorem c5_turn_increment_and_alternation :
    ∀ (g g' : Game) (r : GuessResult) (pid num gid : String),
      (∀ p2 : Player, g.player_2 = some p2 →
        p2.player_id ≠ g.player_1.player_id) →
      process_guess g pid num gid = some (Except.ok (g', r)) →
      g'.turn_count = g.turn_count + 1 ∧
        (r.is_winner = false →
          ((pid = g.player_1.player_id →
              ∃ p2 : Player, g.player_2 = some p2 ∧
                g'.current_turn = some p2.player_id) ∧
            (∀ p2 : Player, g.player_2 = some p2 → pid = p2.player_id →
              g'.current_turn = some g.player_1.player_id))) := by
  intro g g' r pid num gid hdist h
  obtain ⟨_, _, _, _, _, htc, _, _, hbranch⟩ := process_guess_ok_elim h
  refine ⟨htc, ?_⟩
  intro hnw
  rcases hbranch with ⟨htrue, _⟩ | ⟨_, _, _, _, halt⟩
  · rw [hnw] at htrue
    exact absurd htrue (by decide)
  · constructor
    · intro hpid
      rcases halt with ⟨_, p2, hp2, hc⟩ | ⟨hne, _⟩
      · exact ⟨p2, hp2, hc⟩
      · exact absurd hpid.symm hne
    · intro p2 hp2 hpid
      rcases halt with ⟨hpe, _⟩ | ⟨_, hc⟩
      · exact absurd (hpe.trans hpid).symm (hdist p2 hp2)
      · exact hc

theorem c5_witness :
    exMiss.turn_count = exG3.turn_count + 1 ∧
      exMiss.current_turn = some "bob" := by
  have h := c5_turn_increment_and_alternation exG3 exMiss exMissResult
    "alice" "1111" "m1"
    (by intro p2 hp2; injection hp2 with h2; rw [← h2]; decide) rfl
  refine ⟨h.1, ?_⟩
  obtain ⟨h1, _⟩ := h.2 rfl
  obtain ⟨p2, hp2, hc⟩ := h1 rfl
  injection hp2 with h2
  rw [← h2] at hc
  exact hc

/-- C6: game status only ever moves forward along
WAITING → IN_PROGRESS → COMPLETED (join preserves it, lock and guess can
only raise its rank), and COMPLETED is terminal: on a completed game,
`lock_player_number` and `process_guess` fail with GameAlreadyCompleted
and `join_game` also fails, so no operation changes the status away from
COMPLETED. -/
theorem c6_status_monotone :
    (∀ (g g' : Game) (nid nm : String),
      join_game g nid nm = Except.ok g' → g'.status = g.status) ∧
      (∀ (g g' : Game) (pid sec : String),
        lock_player_number g pid sec = Except.ok g' →
        status_rank g.status ≤ status_rank g'.status) ∧
      (∀ (g g' : Game) (r : GuessResult) (pid num gid : String),
        process_guess g pid num gid = some (Except.ok (g', r)) →
        status_rank g.status ≤ status_rank g'.status) ∧
      (∀ (g : Game) (pid sec num gid nid nm : String),
        g.status = GameStatus.completed →
        (lock_player_number g pid sec =
            Except.error GameError.gameAlreadyCompleted ∧
          process_guess g pid num gid =
            some (Except.error GameError.gameAlreadyCompleted) ∧
          ∃ e : GameError, join_game g nid nm = Except.error e)) := by
  refine ⟨?_, ?_, ?_, ?_⟩
  · intro g g' nid nm h
    obtain ⟨_, _, heq⟩ := join_game_ok_elim h
    subst heq
    rfl
  · intro g g' pid sec h
    obtain ⟨hnc, hcases⟩ := lock_ok_elim h
    have hrank : status_rank g.status ≤ 1 := by
      cases hsv : g.status
      · exact Nat.zero_le 1
      · exact Nat.le_refl 1
      · exact absurd hsv hnc
    rcases hcases with ⟨_, _, heq⟩ | ⟨_, p2, _, _, _, heq⟩ <;>
      subst heq <;>
      rcases maybe_start_cases _ with ⟨hb, hms⟩ | ⟨hb, hms⟩ <;> rw [hms] <;>
      exact hrank
  · intro g g' r pid num gid h
    obtain ⟨hst, _, _, _, _, _, _, _, hbranch⟩ := process_guess_ok_elim h
    rw [hst]
    rcases hbranch with ⟨_, hc, _⟩ | ⟨_, hc, _⟩ <;> rw [hc]
    exact Nat.le_succ 1
  · intro g pid sec num gid nid nm hc
    refine ⟨lock_completed pid sec hc, process_guess_completed pid num gid hc, ?_⟩
    cases hp : g.player_2 with
    | none => exact ⟨GameError.gameAlreadyCompleted,
        (join_game_completed nid nm hc).2 hp⟩
    | some p => exact ⟨GameError.gameFull,
        (join_game_completed nid nm hc).1 (by rw [hp]; rfl)⟩

theorem c6_witness :
    lock_player_number exWin "alice" "0000" =
        Except.error GameError.gameAlreadyCompleted ∧
      process_guess exWin "alice" "1111" "w2" =
        some (Except.error GameError.gameAlreadyCompleted) ∧
      status_rank exG3.status ≤ status_rank exWin.status := by
  have h4 := c6_status_monotone.2.2.2 exWin "alice" "0000" "1111" "w2" "x" "X" rfl
  have h3 := c6_status_monotone.2.2.1 exG3 exWin
    { guess_id := "w1"
      guessed_number := "5678"
      correct_digits := 4
      correct_positions := 4
      is_winner := true
      next_turn := none
      winner_id := some "alice"
      turn_number := 1 }
    "alice" "5678" "w1" rfl
  exact ⟨h4.1, h4.2.1, h3⟩

/-- C7: in every reachable game the turn counter equals the number of
recorded guesses, and the guess at (0-based) index `i` of the game's guess
sequence carries turn number `i + 1` — the counter's value when it was
created. -/
theorem c7_turn_count_invariant :
    ∀ g : Game, Reachable g →
      g.turn_count = g.guesses.length ∧
        (∀ (i : Nat) (rec : Guess), g.guesses.get? i = some rec →
          rec.turn_number = i + 1) := by
  intro g hr
  induction hr with
  | create gid pid nm =>
    refine ⟨rfl, ?_⟩
    intro i rec h
    simp [create_new_game] at h
  | join nid nm hr hfresh h ih =>
    obtain ⟨_, _, heq⟩ := join_game_ok_elim h
    subst heq
    exact ih
  | lock pid sec hr h ih =>
    obtain ⟨_, hcases⟩ := lock_ok_elim h
    rcases hcases with ⟨_, _, heq⟩ | ⟨_, p2, _, _, _, heq⟩ <;>
      subst heq <;>
      rcases maybe_start_cases _ with ⟨_, hms⟩ | ⟨_, hms⟩ <;> rw [hms] <;>
      exact ih
  | @guess g gNext rr pid num gid hr h ih =>
    obtain ⟨_, _, _, _, _, htc, _, ⟨rec, happ, hrec⟩, _⟩ :=
      process_guess_ok_elim h
    constructor
    · rw [htc, happ, List.length_append, ih.1]
      rfl
    · intro i rec2 hget
      rw [happ] at hget
      rcases Nat.lt_or_ge i g.guesses.length with hi | hi
      · rw [List.get?_append hi] at hget
        exact ih.2 i rec2 hget
      · rw [List.get?_append_right hi] at hget
        have hzero : i - g.guesses.length = 0 := by
          cases hd : i - g.guesses.length with
          | zero => rfl
          | succ k => rw [hd] at hget; simp at hget
        rw [hzero] at hget
        injection hget with hr2
        subst hr2
        have hlen : i = g.guesses.length := by omega
        rw [hrec, ih.1, hlen]

theorem c7_witness :
    exWin.turn_count = exWin.guesses.length ∧
      exGuessRec.turn_number = 0 + 1 := by
  have h := c7_turn_count_invariant exWin reachable_exWin
  exact ⟨h.1, h.2 0 exGuessRec rfl⟩

/-- C8: locking a slot whose readiness flag is already true fails with
NumberAlreadyLocked (the source raises before any write, so the failing
call returns no updated game and the stored secret is untouched), and no
successful operation ever rewrites a ready slot: a successful lock
preserves a ready slot 1 verbatim and a ready slot 2 verbatim, join
preserves slot 1, and a successful guess preserves both slots — so a
secret, once locked, is immutable for the rest of the game. -/
theorem c8_double_lock :
    (∀ (g : Game) (pid sec : String), g.status ≠ GameStatus.completed →
      ((pid = g.player_1.player_id ∧ g.player_1.is_ready = true) ∨
        (pid ≠ g.player_1.player_id ∧
          ∃ p2 : Player, g.player_2 = some p2 ∧ p2.player_id = pid ∧
            p2.is_ready = true)) →
      lock_player_number g pid sec = Except.error GameError.numberAlreadyLocked) ∧
      (∀ (g g' : Game) (pid sec : String),
        lock_player_number g pid sec = Except.ok g' →
        ((g.player_1.is_ready = true → g'.player_1 = g.player_1) ∧
          (∀ p2 : Player, g.player_2 = some p2 → p2.is_ready = true →
            g'.player_2 = some p2))) ∧
      (∀ (g g' : Game) (nid nm : String), join_game g nid nm = Except.ok g' →
        g'.player_1 = g.player_1) ∧
      (∀ (g g' : Game) (r : GuessResult) (pid num gid : String),
        process_guess g pid num gid = some (Except.ok (g', r)) →
        g'.player_1 = g.player_1 ∧ g'.player_2 = g.player_2) := by
  refine ⟨?_, ?_, ?_, ?_⟩
  · intro g pid sec hnc hcase
    unfold lock_player_number
    rw [if_neg hnc]
    dsimp only
    rcases hcase with ⟨hpid, hready⟩ | ⟨hpid, p2, hp2, hpid2, hready⟩
    · rw [if_pos hpid.symm, if_pos hready]
    · rw [if_neg (fun hh => hpid hh.symm), hp2]
      dsimp only
      rw [if_pos hpid2, if_pos hready]
  · intro g g' pid sec h
    obtain ⟨_, hcases⟩ := lock_ok_elim h
    rcases hcases with ⟨hpid, hready, heq⟩ | ⟨hpid, p2, hp2, hpid2, hready, heq⟩ <;>
      subst heq <;>
      rcases maybe_start_cases _ with ⟨_, hms⟩ | ⟨_, hms⟩ <;> rw [hms] <;>
      dsimp only <;> constructor
    · intro hcon
      rw [hcon] at hready
      exact absurd hready (by decide)
    · intro q2 hq2 _
      exact hq2
    · intro hcon
      rw [hcon] at hready
      exact absurd hready (by decide)
    · intro q2 hq2 _
      exact hq2
    · intro _
      rfl
    · intro q2 hq2 hq2r
      rw [hp2] at hq2
      injection hq2 with he
      rw [← he] at hq2r
      rw [hq2r] at hready
      exact absurd hready (by decide)
    · intro _
      rfl
    · intro q2 hq2 hq2r
      rw [hp2] at hq2
      injection hq2 with he
      rw [← he] at hq2r
      rw [hq2r] at hready
      exact absurd hready (by decide)
  · intro g g' nid nm h
    obtain ⟨_, _, heq⟩ := join_game_ok_elim h
    subst heq
    rfl
  · intro g g' r pid num gid h
    obtain ⟨_, _, _, h1, h2, _⟩ := process_guess_ok_elim h
    exact ⟨h1, h2⟩

theorem c8_witness :
    lock_player_number exG3 "alice" "1234" =
      Except.error GameError.numberAlreadyLocked :=
  c8_double_lock.1 exG3 "alice" "1234" (by decide) (Or.inl ⟨rfl, rfl⟩)

/-- C9: under the precondition that both inputs are 4-character decimal
digit strings, `calculate_match` is total — every string index it reads is
in bounds, so the embedded partiality (`Option`) never fires — and
deterministic; it is a pure function of its two arguments (the embedding
is a mathematical function, so it has no side effects by construction).
-/
theorem c9_calculate_match_total :
    ∀ secret guess : String,
      secret.data.length = 4 → guess.data.length = 4 →
      (∀ c ∈ secret.data, c.isDigit = true) →
      (∀ c ∈ guess.data, c.isDigit = true) →
      ((calculate_match secret guess).isSome = true ∧
        (∀ r1 r2 : Nat × Nat, calculate_match secret guess = some r1 →
          calculate_match secret guess = some r2 → r1 = r2)) := by
  intro secret guess hs hg _ _
  constructor
  · unfold calculate_match
    rw [if_pos ⟨by omega, by omega⟩]
    rfl
  · intro r1 r2 h1 h2
    rw [h1] at h2
    exact Option.some_injective _ h2

theorem c9_witness :
    (calculate_match "1234" "5678").isSome = true := by
  have h := c9_calculate_match_total "1234" "5678" rfl rfl
    (by decide) (by decide)
  exact h.1

/-- C10: the core operations perform no number-format validation:
`lock_player_number` and `process_guess` never produce the
InvalidNumberFormat failure kind for any input, and a lock on a
not-yet-ready slot of a non-completed game stores the given string
verbatim as the slot's secret, whatever its length or content (the
transport layer's request schemas are the only place a 4-digit pattern is
enforced). -/
theorem c10_no_format_validation :
    (∀ (g : Game) (pid sec : String),
      lock_player_number g pid sec ≠
        Except.error GameError.invalidNumberFormat) ∧
      (∀ (g : Game) (pid num gid : String),
        process_guess g pid num gid ≠
          some (Except.error GameError.invalidNumberFormat)) ∧
      (∀ (g : Game) (sec : String), g.status ≠ GameStatus.completed →
        g.player_1.is_ready = false →
        ∃ g' : Game,
          lock_player_number g g.player_1.player_id sec = Except.ok g' ∧
            g'.player_1.secret_number = some sec) ∧
      (∀ (g : Game) (sec : String) (p2 : Player),
        g.status ≠ GameStatus.completed →
        g.player_2 = some p2 → p2.player_id ≠ g.player_1.player_id →
        p2.is_ready = false →
        ∃ (g' : Game) (q2 : Player),
          lock_player_number g p2.player_id sec = Except.ok g' ∧
            g'.player_2 = some q2 ∧ q2.secret_number = some sec) := by
  refine ⟨?_, ?_, ?_, ?_⟩
  · intro g pid sec h
    unfold lock_player_number at h
    split at h
    · injection h with he
      exact absurd he (by decide)
    · dsimp only at h
      split at h
      · rename_i e2 heq
        injection h with he
        rw [he] at heq
        split at heq
        · split at heq
          · injection heq with he2
            exact absurd he2 (by decide)
          · exact absurd heq (by simp)
        · split at heq
          · split at heq
            · split at heq
              · injection heq with he2
                exact absurd he2 (by decide)
              · exact absurd heq (by simp)
            · injection heq with he2
              exact absurd he2 (by decide)
          · injection heq with he2
            exact absurd he2 (by decide)
      · exact absurd h (by simp)
  · intro g pid num gid h
    unfold process_guess at h
    split at h
    · injection h with he
      injection he with he2
      exact absurd he2 (by decide)
    · split at h
      · injection h with he
        injection he with he2
        exact absurd he2 (by decide)
      · split at h
        · injection h with he
          injection he with he2
          exact absurd he2 (by decide)
        · split at h
          · injection h with he
            injection he with he2
            exact absurd he2 (by decide)
          · split at h
            · exact absurd h (by simp)
            · split at h
              · exact absurd h (by simp)
              · split at h
                · exact absurd h (by simp)
                · split at h
                  · exact absurd h (by simp)
                  · dsimp only at h
                    split at h
                    · exact absurd h (by simp)
                    · exact absurd h (by simp)
  · intro g sec hnc hready
    refine ⟨maybe_start
      { g with
        player_1 :=
          { g.player_1 with secret_number := some sec, is_ready := true } },
      ?_, ?_⟩
    · unfold lock_player_number
      rw [if_neg hnc]
      dsimp only
      rw [if_pos rfl, if_neg (by rw [hready]; exact Bool.false_ne_true)]
    · rcases maybe_start_cases
        { g with
          player_1 :=
            { g.player_1 with secret_number := some sec, is_ready := true } } with
        ⟨_, hms⟩ | ⟨_, hms⟩ <;> rw [hms]
  · intro g sec p2 hnc hp2 hpid hready
    refine ⟨maybe_start
      { g with
        player_2 := some
          { p2 with secret_number := some sec, is_ready := true } },
      { p2 with secret_number := some sec, is_ready := true }, ?_, ?_, rfl⟩
    · unfold lock_player_number
      rw [if_neg hnc]
      dsimp only
      rw [if_neg (fun hh => hpid hh.symm), hp2]
      dsimp only
      rw [if_pos rfl, if_neg (by rw [hready]; exact Bool.false_ne_true)]
    · rcases maybe_start_cases
        { g with
          player_2 := some
            { p2 with secret_number := some sec, is_ready := true } } with
        ⟨_, hms⟩ | ⟨_, hms⟩ <;> rw [hms]

theorem c10_witness :
    ∃ g' : Game, lock_player_number exG0 "alice" "not-four-digits" =
        Except.ok g' ∧
      g'.player_1.secret_number = some "not-four-digits" :=
  c10_no_format_validation.2.2.1 exG0 "not-four-digits" (by decide) rfl

theorem mem_digit_chars_of_isDigit {c : Char} (h : c.isDigit = true) :
    c ∈ digit_chars := by
  have h1 : 48 ≤ c.toNat ∧ c.toNat ≤ 57 := by
    simp only [Char.isDigit, Bool.and_eq_true, decide_eq_true_eq] at h
    exact h
  have h2 : c = Char.ofNat c.toNat := (Char.ofNat_toNat c).symm
  obtain ⟨ha, hb⟩ := h1
  unfold digit_chars
  interval_cases hn : c.toNat <;> rw [h2] <;> decide

theorem digit_chars_nodup : digit_chars.Nodup := by decide

theorem foldl_if_mem_eq_sum (s : List Char) (m : Char → Nat) :
    ∀ (l : List Char) (init : Nat),
      l.foldl (fun acc d => if d ∈ s then acc + m d else acc) init =
        init + (l.map (fun d => if d ∈ s then m d else 0)).sum := by
  intro l
  induction l with
  | nil => intro init; simp
  | cons a t ih =>
    intro init
    simp only [List.foldl_cons, List.map_cons, List.sum_cons]
    by_cases ha : a ∈ s
    · rw [if_pos ha, if_pos ha, ih]
      omega
    · rw [if_neg ha, if_neg ha, ih]
      omega

theorem code_correct_digits_eq (s g : List Char)
    (hgd : ∀ c ∈ g, c.isDigit = true) :
    g.dedup.foldl
        (fun acc d => if d ∈ s then acc + min (s.count d) (g.count d) else acc)
        0 =
      claimed_correct_digits s g := by
  rw [foldl_if_mem_eq_sum, Nat.zero_add]
  have hmc :
      g.dedup.map (fun d => if d ∈ s then min (s.count d) (g.count d) else 0) =
        g.dedup.map (fun d => min (s.count d) (g.count d)) := by
    apply List.map_congr_left
    intro a _
    by_cases h : a ∈ s
    · rw [if_pos h]
    · rw [if_neg h, List.count_eq_zero_of_not_mem h, Nat.zero_min]
  rw [hmc]
  unfold claimed_correct_digits
  rw [← List.sum_toFinset _ (List.nodup_dedup g),
    ← List.sum_toFinset _ digit_chars_nodup]
  apply Finset.sum_subset
  · intro x hx
    rw [List.mem_toFinset] at hx ⊢
    exact mem_digit_chars_of_isDigit (hgd x (List.mem_dedup.mp hx))
  · intro x _ hx
    rw [List.mem_toFinset, List.mem_dedup] at hx
    rw [List.count_eq_zero_of_not_mem hx, Nat.min_zero]

theorem code_correct_positions_eq (s g : List Char)
    (hs : s.length = 4) (hg : g.length = 4) :
    ((List.range 4).filter (fun i => s.get? i = g.get? i)).length =
      claimed_correct_positions s g := by
  unfold claimed_correct_positions
  congr 1
  apply List.filter_congr
  intro i hi
  rw [List.mem_range] at hi
  have h1 : s.get? i = some (s.getD i ' ') := by
    rw [List.getD_eq_getElem?_getD, List.get?_eq_getElem?,
      List.getElem?_eq_getElem (by omega)]
    rfl
  have h2 : g.get? i = some (g.getD i ' ') := by
    rw [List.getD_eq_getElem?_getD, List.get?_eq_getElem?,
      List.getElem?_eq_getElem (by omega)]
    rfl
  rw [h1, h2]
  simp

/-- C3 (amended): for every pair of 4-digit strings, `calculate_match`
returns exactly the spec formulas — correct_positions counts the indices
with equal characters and correct_digits sums, over the ten decimal digit
values, the minimum of the occurrence counts — but on secret "1123" and
guess "1111" this yields correct_positions = 2 (indices 0 and 1 both
match), not 1 as the spec example states; correct_digits = 2 as stated. -/
theorem c3_calculate_match_spec :
    ∀ secret guess : String,
      secret.data.length = 4 → guess.data.length = 4 →
      (∀ c ∈ secret.data, c.isDigit = true) →
      (∀ c ∈ guess.data, c.isDigit = true) →
      calculate_match secret guess =
        some (claimed_correct_digits secret.data guess.data,
          claimed_correct_positions secret.data guess.data) := by
  intro secret guess hs hg hsd hgd
  unfold calculate_match
  rw [if_pos ⟨by omega, by omega⟩]
  dsimp only
  rw [code_correct_digits_eq secret.data guess.data hgd,
    code_correct_positions_eq secret.data guess.data hs hg]

/-- C3 (counterexample): the code (and the claim its own general formula)
gives correct_positions = 2 on secret "1123", guess "1111", refuting the
claimed example value 1. -/
theorem c3_counterexample :
    calculate_match "1123" "1111" = some (2, 2) ∧
      calculate_match "1123" "1111" ≠ some (2, 1) := by
  constructor
  · decide
  · decide

theorem c3_witness :
    calculate_match "1123" "1111" =
        some (claimed_correct_digits "1123".data "1111".data,
          claimed_correct_positions "1123".data "1111".data) ∧
      claimed_correct_digits "1123".data "1111".data = 2 ∧
      claimed_correct_positions "1123".data "1111".data = 2 := by
  refine ⟨c3_calculate_match_spec "1123" "1111" rfl rfl (by decide) (by decide),
    by decide, by decide⟩

end Passcode
